import Mathlib

/-!
Verification of the build/release orchestration script (`Makefile.js`).

The script is shallowly embedded below.  JavaScript strings are Lean
`String`s (whose kernel representation is a `List Char`), filesystem
queries (`test("-f", p)`, `find(dir)`) are modelled as lookups in an
explicit list of existing paths respectively as a traversal of an
explicit directory tree, wall-clock durations and the CPU speed are
modelled as exact rationals, and the release chain is modelled as a
trace over per-step outcome functions that distinguish an external
command's unchecked non-zero exit from an explicit `exit(1)` call.
-/

/-! ## JavaScript string primitives -/

/-- Index (0-based) of the first occurrence of the pattern `pat` inside a
character list, or `none` when `pat` does not occur.  Helper for
`jsIndexOf` below. -/
def jsFindSub (pat : List Char) : List Char → Option Nat
  | [] => if pat.isPrefixOf ([] : List Char) then some 0 else none
  | c :: ts =>
      if pat.isPrefixOf (c :: ts) then some 0
      else (jsFindSub pat ts).map (· + 1)

/-- Model of JavaScript `text.indexOf(pat)`: the index of the first
occurrence of `pat` in `text`, or `-1` when `pat` does not occur. -/
def jsIndexOf (text pat : String) : Int :=
  match jsFindSub pat.toList text.toList with
  | none => -1
  | some i => (i : Int)

/-- Model of JavaScript `text.lastIndexOf(c)` for a single character:
the index of the last occurrence of `c`, or `-1` when `c` does not
occur. -/
def jsLastIndexOf (c : Char) : List Char → Int
  | [] => -1
  | a :: as =>
      let r := jsLastIndexOf c as
      if r == -1 then (if a == c then 0 else -1) else r + 1

/-- Model of Node's `path.basename(p, suff)`: the final path component
of `p`, with the suffix `suff` removed when the component properly ends
with it. -/
def jsBasename (p : String) (suff : String) : String :=
  let comp := (p.toList.reverse.takeWhile (fun c => c != '/')).reverse
  if comp ≠ suff.toList ∧ suff.toList.isSuffixOf comp then
    String.mk (comp.take (comp.length - suff.toList.length))
  else String.mk comp

/-- Model of JavaScript `array.join("\n")`. -/
def joinNL : List String → String
  | [] => ""
  | [s] => s
  | s :: s2 :: rest => s ++ "\n" ++ joinNL (s2 :: rest)

/-! ## File Set Resolver (`fileType`, `find(...).filter(...)`) -/

/-- Embedding of the helper `fileType` of `Makefile.js` (lines 60-64):

    return filename.substring(filename.lastIndexOf(".") + 1) === extension;
-/
def fileType (extension : String) : String → Bool :=
  fun filename =>
    filename.toList.drop ((jsLastIndexOf '.' filename.toList + 1).toNat)
      == extension.toList

/-- A directory tree, the input that shelljs `find` traverses. -/
inductive FSTree where
  | file (name : String)
  | dir (name : String) (entries : List FSTree)

mutual

/-- Ordered enumeration of all paths of a tree, modelling shelljs
`find`: the entry itself followed by its children, depth first. -/
def findPaths (pre : String) : FSTree → List String
  | .file n => [pre ++ n]
  | .dir n entries => (pre ++ n) :: findForest (pre ++ n ++ "/") entries

/-- Enumeration of the paths of a list of sibling trees, in order. -/
def findForest (pre : String) : List FSTree → List String
  | [] => []
  | t :: ts => findPaths pre t ++ findForest pre ts

end

/-- The File Set Resolver: directory enumeration filtered by extension,
modelling e.g. `find("lib/").filter(fileType("js"))` (line 46). -/
def resolveFileSet (ext : String) (t : FSTree) : List String :=
  (findPaths "" t).filter (fileType ext)

/-! ## Changelog Generator (`target.changelog`, lines 192-224) -/

/-- The predicate of the log filter (lines 205-207): a line is kept iff
`line.indexOf("Merge pull request") === -1 && line.indexOf("Merge branch") === -1`. -/
def keepLogLine (line : String) : Bool :=
  jsIndexOf line "Merge pull request" == -1 && jsIndexOf line "Merge branch" == -1

/-- `logs.filter(...)` of the changelog target. -/
def filterLogs (logs : List String) : List String := logs.filter keepLogLine

/-- The block written to `CHANGELOG.tmp` (lines 195-212): header line
`rangeTags[1] + " - " + timestamp + "\n"` followed by the filtered log
lines with `""` pushed at the end and unshifted at the front, joined by
newlines.  `tags` is the tag list from `git tag`, `rawLogLines` the
lines of `git log --pretty=format:"* %s (%an)"`. -/
def changelogBlock (tags : List String) (timestamp : String) (rawLogLines : List String) : String :=
  let rangeTags := tags.drop (tags.length - 2)
  let logs := filterLogs rawLogLines
  (rangeTags.getD 1 "undefined" ++ " - " ++ timestamp ++ "\n")
    ++ joinNL ([""] ++ (logs ++ [""]))

/-- The whole-file effect of the changelog target (lines 215-218):
`cat("CHANGELOG.tmp", "CHANGELOG.md")` concatenates the new block with
the previous changelog contents, which then replaces `CHANGELOG.md`. -/
def changelogUpdate (tags : List String) (timestamp : String) (rawLogLines : List String)
    (oldChangelog : String) : String :=
  changelogBlock tags timestamp rawLogLines ++ oldChangelog

/-! ## Performance Gate (`target.perf`, lines 271-331) -/

/-- The constant of line 30: `var PERF_MULTIPLIER = 7.5e6;`. -/
def PERF_MULTIPLIER : ℚ := 7500000

/-- Line 275: `max = PERF_MULTIPLIER / cpuSpeed`. -/
def perfThreshold (cpuSpeed : ℚ) : ℚ := PERF_MULTIPLIER / cpuSpeed

/-- Insertion of an element into an ascending list; helper for
`sortAsc`. -/
def insertSorted (x : ℚ) : List ℚ → List ℚ
  | [] => [x]
  | y :: ys => if x ≤ y then x :: y :: ys else y :: insertSorted x ys

/-- Ascending numeric sort, modelling
`results.sort(function(a, b) { return a - b; })` (lines 311-313).  Any
correct implementation of that call produces the ascending reordering,
which is what this function computes. -/
def sortAsc : List ℚ → List ℚ
  | [] => []
  | x :: xs => insertSorted x (sortAsc xs)

/-- Independent rendering of "the median of three numbers", used to
state what the gate's decision statistic is. -/
def median3 (a b c : ℚ) : ℚ := max (min a b) (min (max a b) c)

/-- What the perf task signals and reports after the third run
completes: whether it exits with failure, and the duration/limit pair
interpolated into the `echo` message. -/
structure PerfOutcome where
  failed : Bool
  reportedDuration : ℚ
  limit : ℚ

/-- Embedding of the decision code of `target.perf` (lines 311-320),
reached once all three trial durations `run1`, `run2`, `run3` (in run
order) have been collected:

    results.sort(function(a, b) { return a - b; });
    if (results[1] > max) {
        echo("Performance budget exceeded: %dms (limit: %dms)", actual, max);
        exit(1);
    } else {
        echo("Performance budget ok:  %dms (limit: %dms)", actual, max);
    }

At this point the variable `actual` in scope is the innermost one,
holding the duration of run 3 (line 306), which is what both `echo`
calls interpolate. -/
def perfGate (run1 run2 run3 : ℚ) (max : ℚ) : PerfOutcome :=
  let results := sortAsc [run1, run2, run3]
  if results.getD 1 0 > max then
    { failed := true, reportedDuration := run3, limit := max }
  else
    { failed := false, reportedDuration := run3, limit := max }

/-- The full perf task: threshold computed from the detected CPU speed
(line 275), then the three-sample gate. -/
def perfTask (run1 run2 run3 cpuSpeed : ℚ) : PerfOutcome :=
  perfGate run1 run2 run3 (perfThreshold cpuSpeed)

/-! ## Consistency Validator (`target.checkRuleFiles`, lines 226-269) -/

/-- The diagnostics emitted through `console.error`, one per missing
condition, each naming the offending rule. -/
inductive RuleMsg where
  | missingDoc (name : String)
  | missingIndexLink (name : String)
  | missingDefault (name : String)
  | missingTests (name : String)
deriving DecidableEq

/-- The inputs `target.checkRuleFiles` consults: the filesystem (as the
list of existing file paths, queried by `test("-f", p)`), the text of
`docs/rules/README.md`, the keys of `require("./conf/eslint.json").rules`,
and `find("lib/rules/").filter(fileType("js"))`. -/
structure CheckInput where
  existingFiles : List String
  rulesIndexText : String
  confRules : List String
  ruleFiles : List String

/-- `test("-f", p)` against the modelled filesystem. -/
def fileExists (inp : CheckInput) (p : String) : Bool :=
  inp.existingFiles.contains p

/-- The diagnostics produced for one rule file (lines 235-263), in
emission order: missing doc (or, only when the doc exists, missing index
link), missing default configuration, missing tests.  Each emitted
message is accompanied by `errors++` in the source. -/
def ruleMsgs (inp : CheckInput) (filename : String) : List RuleMsg :=
  let basename := jsBasename filename ".js"
  (if !(fileExists inp ("docs/rules/" ++ basename ++ ".md")) then
      [RuleMsg.missingDoc basename]
    else if jsIndexOf inp.rulesIndexText ("(" ++ basename ++ ".md)") == -1 then
      [RuleMsg.missingIndexLink basename]
    else [])
  ++ (if !(inp.confRules.contains basename) then [RuleMsg.missingDefault basename] else [])
  ++ (if !(fileExists inp ("tests/lib/rules/" ++ basename ++ ".js")) then
      [RuleMsg.missingTests basename]
    else [])

/-- The observable outcome of one validation pass: every diagnostic in
emission order, the final error counter, and whether `exit(1)` is
reached. -/
structure CheckResult where
  msgs : List RuleMsg
  errors : Nat
  failed : Bool

/-- Embedding of `target.checkRuleFiles`: all rules are scanned, the
counter equals the number of emitted diagnostics, and `if (errors)
exit(1)` (lines 265-267) fails exactly when the counter is nonzero. -/
def checkRuleFiles (inp : CheckInput) : CheckResult :=
  let msgs := inp.ruleFiles.flatMap (ruleMsgs inp)
  { msgs := msgs, errors := msgs.length, failed := msgs.length != 0 }

/-! ## Release State Machine (`release`, lines 90-97) -/

/-- The six externally visible states of the release pipeline, in the
order `release` invokes them: `target.test()`, `npm version`,
`target.changelog()`, `git push origin master --tags`, `npm publish`,
`target.gensite()`. -/
inductive ReleaseStep where
  | validateTest
  | bumpVersion
  | updateChangelog
  | pushTags
  | publishPackage
  | republishSite
deriving DecidableEq

/-- The release type passed to `npm version`; it selects the version
increment only and plays no role in the orchestration order. -/
inductive ReleaseType where
  | patch
  | minor
  | major
deriving DecidableEq

/-- The authored order of the release pipeline. -/
def releaseOrder : List ReleaseStep :=
  [ReleaseStep.validateTest, ReleaseStep.bumpVersion, ReleaseStep.updateChangelog,
   ReleaseStep.pushTags, ReleaseStep.publishPackage, ReleaseStep.republishSite]

/-- How one step of the chain ends.  `Makefile.js` never inspects an
`exec`/`nodeCLI.exec` return code, and shelljs's `exec` does not abort
the process on a command's non-zero exit status, so such a failure
(`cmdFail`) lets the chain continue.  The only constructs that stop the
chain are the script's own explicit `exit(1)` calls — in the release
chain that is `checkRuleFiles` (line 266) inside `target.test` —
modelled as `exitCalled`. -/
inductive StepResult where
  | ok
  | cmdFail
  | exitCalled
deriving DecidableEq

/-- Whether a step's outcome terminates the process (and so the chain):
only an explicit `exit(1)` does. -/
def haltsChain : StepResult → Bool
  | StepResult.exitCalled => true
  | _ => false

/-- Execution of the straight-line `release` body (lines 90-97): each
step runs in order; a step whose outcome is an explicit process exit
terminates the chain, while any other outcome — including a failed
external command — is followed by the next step.  The trace records
the steps that were started. -/
def runChain (res : ReleaseStep → StepResult) : List ReleaseStep → List ReleaseStep
  | [] => []
  | s :: rest => if haltsChain (res s) then [s] else s :: runChain res rest

/-- The trace of one `release(type)` invocation, given each step's
outcome.  The release type does not influence the sequence. -/
def releaseTrace (type : ReleaseType) (res : ReleaseStep → StepResult) : List ReleaseStep :=
  match type with
  | _ => runChain res releaseOrder

/-! ## Concrete inputs used by witnesses -/

/-- A concrete validator input: two rule files, with `semi` missing its
documentation file and everything else present. -/
def demoInput : CheckInput :=
  { existingFiles := ["docs/rules/curly.md", "tests/lib/rules/curly.js", "tests/lib/rules/semi.js"]
    rulesIndexText := "* [curly](curly.md)"
    confRules := ["curly", "semi"]
    ruleFiles := ["lib/rules/curly.js", "lib/rules/semi.js"] }

/-- A concrete directory tree. -/
def demoTree : FSTree :=
  FSTree.dir "lib" [FSTree.file "eslint.js", FSTree.dir "rules" [FSTree.file "semi.js"]]

/-- Step outcomes of a release run in which a command inside
`target.test` (say the mocha/istanbul invocation) exits non-zero while
`checkRuleFiles` finds no errors, and every later command succeeds. -/
def testCmdFailRun : ReleaseStep → StepResult :=
  fun s => match s with
  | ReleaseStep.validateTest => StepResult.cmdFail
  | _ => StepResult.ok

/-- Step outcomes of a release run in which `checkRuleFiles` inside
`target.test` reaches its explicit `exit(1)`. -/
def testExitRun : ReleaseStep → StepResult :=
  fun s => match s with
  | ReleaseStep.validateTest => StepResult.exitCalled
  | _ => StepResult.ok

/-! ## Helper lemmas -/

/-- Characterisation of `jsFindSub` failure: the pattern does not occur
as an infix. -/
theorem jsFindSub_none_iff (pat t : List Char) : jsFindSub pat t = none ↔ ¬ pat <:+: t := by
  induction t with
  | nil =>
      simp only [jsFindSub, List.infix_nil]
      by_cases h : pat = []
      · subst h; simp
      · have hb : pat.isPrefixOf ([] : List Char) = false := by
          cases pat with
          | nil => simp at h
          | cons a as => rfl
        simp [hb, h]
  | cons c ts ih =>
      simp only [jsFindSub]
      by_cases h : pat <+: (c :: ts)
      · have hb : pat.isPrefixOf (c :: ts) = true := List.isPrefixOf_iff_prefix.mpr h
        simp [hb, List.infix_cons_iff, h]
      · have hb : pat.isPrefixOf (c :: ts) = false := by
          rw [Bool.eq_false_iff]
          intro hc
          exact h ( List.isPrefixOf_iff_prefix.mp hc)
        simp only [hb, Bool.false_eq_true, ite_false, Option.map_eq_none']
        rw [List.infix_cons_iff]
        constructor
        · intro hn hor
          rcases hor with hp | hi
          · exact h hp
          · exact (ih.mp hn) hi
        · intro hn
          exact ih.mpr (fun hi => hn (Or.inr hi))

/-- `jsIndexOf` returns `-1` exactly when the pattern is not a substring
of the text. -/
theorem jsIndexOf_neg_one_iff (text pat : String) :
    jsIndexOf text pat = -1 ↔ ¬ pat.toList <:+: text.toList := by
  rw [← jsFindSub_none_iff pat.toList text.toList]
  unfold jsIndexOf
  cases h : jsFindSub pat.toList text.toList with
  | none => simp
  | some i =>
      simp only [h]
      constructor
      · intro hc
        exfalso
        omega
      · intro hc
        cases hc

/-- `jsLastIndexOf` returns `-1` when the character never occurs. -/
theorem jsLastIndexOf_of_not_mem (c : Char) (l : List Char) (h : c ∉ l) :
    jsLastIndexOf c l = -1 := by
  induction l with
  | nil => rfl
  | cons a as ih =>
      rw [List.mem_cons, not_or] at h
      have hac : (a == c) = false := beq_eq_false_iff_ne.mpr (fun hac => h.1 hac.symm)
      simp only [jsLastIndexOf, ih h.2, hac]
      rfl

/-- The second element of the ascending sort of three rationals is their
median. -/
theorem sortAsc_median (a b c : ℚ) : (sortAsc [a, b, c]).getD 1 0 = median3 a b c := by
  simp only [sortAsc, insertSorted, median3, min_def, max_def]
  split_ifs <;> simp only [insertSorted] <;> split_ifs <;>
    simp_all [List.getD_cons_succ, List.getD_cons_zero] <;> linarith

/-- Each element's image is an infix of the `flatMap`. -/
theorem flatMap_infix {α β : Type} (f : α → List β) (l : List α) (a : α) (h : a ∈ l) :
    f a <:+: l.flatMap f := by
  induction l with
  | nil => cases h
  | cons x xs ih =>
      rcases List.mem_cons.mp h with rfl | hmem
      · exact ⟨[], xs.flatMap f, by simp⟩
      · obtain ⟨s, t, hst⟩ := ih hmem
        exact ⟨f x ++ s, t, by simp [← hst, List.flatMap_cons, List.append_assoc]⟩

/-- Normal form of the changelog block when at least two tags exist:
`tOld` and `tNew` are the two most recent tags (the last two of the
`git tag` output); the header line carries `tNew`. -/
theorem changelogBlock_shape (front : List String) (tOld tNew ts : String)
    (rawLogs : List String) :
    changelogBlock (front ++ [tOld, tNew]) ts rawLogs
      = joinNL ((tNew ++ " - " ++ ts) :: "" :: (filterLogs rawLogs ++ [""])) := by
  have hdrop : (front ++ [tOld, tNew]).drop ((front ++ [tOld, tNew]).length - 2)
      = [tOld, tNew] := by
    have hlen : (front ++ [tOld, tNew]).length - 2 = front.length := by
      simp [List.length_append]
    rw [hlen]
    exact List.drop_left front [tOld, tNew]
  simp only [changelogBlock, hdrop, List.getD_cons_succ, List.getD_cons_zero,
    List.singleton_append, joinNL, String.append_assoc]

/-- The changelog block is never the empty string (its header contains
at least the separator and the final newline). -/
theorem changelogBlock_length_pos (tags : List String) (ts : String) (rawLogs : List String) :
    0 < (changelogBlock tags ts rawLogs).length := by
  simp only [changelogBlock, String.length_append]
  have h1 : ("\n" : String).length = 1 := rfl
  rw [h1]
  omega

/-! ## Claims -/

/-- Claim C1: with the threshold computed as the fixed constant divided
by the detected processor clock speed, the perf gate sorts the three
trial durations ascending, takes the second (the median) as the decision
statistic, and signals failure exactly when that median exceeds the
threshold; in particular durations 200, 210, 190 against threshold 150
fail (median 200) and durations 100, 120, 90 against threshold 150
succeed (median 100). -/
theorem perf_gate_median_decision :
    (∀ d1 d2 d3 s : ℚ,
        (perfTask d1 d2 d3 s).failed = true ↔ median3 d1 d2 d3 > PERF_MULTIPLIER / s)
    ∧ (perfGate 200 210 190 150).failed = true
    ∧ (perfGate 100 120 90 150).failed = false := by
  refine ⟨?_, by decide, by decide⟩
  intro d1 d2 d3 s
  have hm := sortAsc_median d1 d2 d3
  simp only [perfTask, perfGate, perfThreshold]
  split_ifs with h
  · rw [hm] at h
    exact iff_of_true rfl h
  · rw [hm] at h
    exact iff_of_false (by simp) h

/-- Claim C2: the Consistency Validator is exhaustive (every rule's
diagnostics appear in the pass, regardless of earlier errors), counts
one error per emitted diagnostic, signals failure exactly when some rule
has a missing condition, reports a rule with a missing documentation
file by name and fails, and signals success with zero errors when every
rule has its doc, index link, config entry and test. -/
theorem checkRuleFiles_exhaustive_gate (inp : CheckInput) :
    ((checkRuleFiles inp).failed = true ↔ ∃ r ∈ inp.ruleFiles, ruleMsgs inp r ≠ [])
    ∧ (∀ r ∈ inp.ruleFiles, ruleMsgs inp r <:+: (checkRuleFiles inp).msgs)
    ∧ ((checkRuleFiles inp).errors = (checkRuleFiles inp).msgs.length)
    ∧ (∀ r ∈ inp.ruleFiles,
        fileExists inp ("docs/rules/" ++ jsBasename r ".js" ++ ".md") = false →
          RuleMsg.missingDoc (jsBasename r ".js") ∈ (checkRuleFiles inp).msgs
          ∧ (checkRuleFiles inp).failed = true)
    ∧ ((∀ r ∈ inp.ruleFiles,
          fileExists inp ("docs/rules/" ++ jsBasename r ".js" ++ ".md") = true
          ∧ jsIndexOf inp.rulesIndexText ("(" ++ jsBasename r ".js" ++ ".md)") ≠ -1
          ∧ inp.confRules.contains (jsBasename r ".js") = true
          ∧ fileExists inp ("tests/lib/rules/" ++ jsBasename r ".js" ++ ".js") = true) →
        (checkRuleFiles inp).errors = 0 ∧ (checkRuleFiles inp).failed = false) := by
  refine ⟨?_, ?_, rfl, ?_, ?_⟩
  · simp only [checkRuleFiles, bne_iff_ne, ne_eq, List.length_eq_zero]
    rw [not_iff_comm, List.flatMap_eq_nil_iff]
    push_neg
    simp
  · intro r hr
    exact flatMap_infix (ruleMsgs inp) inp.ruleFiles r hr
  · intro r hr hdoc
    have hmem : RuleMsg.missingDoc (jsBasename r ".js") ∈ ruleMsgs inp r := by
      simp [ruleMsgs, hdoc]
    have hmsg : RuleMsg.missingDoc (jsBasename r ".js") ∈ (checkRuleFiles inp).msgs := by
      simp only [checkRuleFiles]
      exact List.mem_flatMap.mpr ⟨r, hr, hmem⟩
    refine ⟨hmsg, ?_⟩
    have hne : (checkRuleFiles inp).msgs ≠ [] := List.ne_nil_of_mem hmsg
    simp only [checkRuleFiles, bne_iff_ne, ne_eq, List.length_eq_zero] at hne ⊢
    simpa using hne
  · intro h
    have hall : ∀ r ∈ inp.ruleFiles, ruleMsgs inp r = [] := by
      intro r hr
      obtain ⟨h1, h2, h3, h4⟩ := h r hr
      have h2b : (jsIndexOf inp.rulesIndexText ("(" ++ jsBasename r ".js" ++ ".md)") == -1)
          = false := beq_eq_false_iff_ne.mpr h2
      have h3m : jsBasename r ".js" ∈ inp.confRules := by simpa using h3
      simp [ruleMsgs, h1, h2b, h3m, h4]
    constructor
    · simp only [checkRuleFiles]
      rw [List.flatMap_eq_nil_iff.mpr hall]
      rfl
    · simp only [checkRuleFiles]
      rw [List.flatMap_eq_nil_iff.mpr hall]
      rfl

/-- Witness for claim C2: on a concrete input where rule `semi` lacks
its documentation file, the validator reports it by name and fails. -/
theorem checkRuleFiles_exhaustive_gate_witness :
    RuleMsg.missingDoc "semi" ∈ (checkRuleFiles demoInput).msgs
    ∧ (checkRuleFiles demoInput).failed = true := by
  have h := (checkRuleFiles_exhaustive_gate demoInput).2.2.2.1
    "lib/rules/semi.js" (by decide) (by decide)
  have e : jsBasename "lib/rules/semi.js" ".js" = "semi" := by decide
  rw [e] at h
  exact h

/-- Claim C3 (code bug): the release body checks no command's exit
status, so when the validate-and-test step fails through a failing
external command (lint, mocha, istanbul) the chain does NOT halt: the
trace runs through `npm version`, `git push --tags` and `npm publish`
anyway.  Only the explicit `exit(1)` of `checkRuleFiles` halts the
chain, and then the trace is the single validate-and-test state, as the
claim (and the spec's fail-fast contract) demand for every failure. -/
theorem release_exec_failures_not_gated :
    releaseTrace ReleaseType.patch testCmdFailRun = releaseOrder
    ∧ ReleaseStep.pushTags ∈ releaseTrace ReleaseType.patch testCmdFailRun
    ∧ ReleaseStep.publishPackage ∈ releaseTrace ReleaseType.patch testCmdFailRun
    ∧ releaseTrace ReleaseType.patch testExitRun = [ReleaseStep.validateTest]
    ∧ ReleaseStep.pushTags ∉ releaseTrace ReleaseType.patch testExitRun
    ∧ (∀ (type : ReleaseType) (res : ReleaseStep → StepResult),
        (∀ s, res s = StepResult.ok) → releaseTrace type res = releaseOrder) := by
  refine ⟨by decide, by decide, by decide, by decide, by decide, ?_⟩
  intro type res h
  simp [releaseTrace, releaseOrder, runChain, haltsChain, h]

/-- Witness for claim C3: the all-success run executes the six states in
the authored order with no skips. -/
theorem release_exec_failures_not_gated_witness :
    releaseTrace ReleaseType.patch (fun _ => StepResult.ok) = releaseOrder :=
  release_exec_failures_not_gated.2.2.2.2.2 ReleaseType.patch
    (fun _ => StepResult.ok) (fun _ => rfl)

/-- Counterexample for claim C4: the generated block's header line uses
the NEWER of the two most recent tags (`rangeTags[1]`), not the older
one as the claim states; at tags `v1.0.0`, `v1.1.0` the block starts
with `v1.1.0`, not `v1.0.0`. -/
theorem changelog_header_newer_tag_cex :
    changelogBlock ["v1.0.0", "v1.1.0"] "December 25, 2013" ["* Foo (bar)"]
      = "v1.1.0 - December 25, 2013\n\n* Foo (bar)\n"
    ∧ changelogBlock ["v1.0.0", "v1.1.0"] "December 25, 2013" ["* Foo (bar)"]
      ≠ "v1.0.0 - December 25, 2013\n\n* Foo (bar)\n" := by
  constructor <;> decide

/-- Claim C4 (amended): for every changelog generation run with at least
two tags, the produced block consists of a header line combining the
NEWER of the two most recent tag names with the current date, followed
by a blank line, then the filtered commit entries each on its own line,
then a trailing empty segment terminating the last line. -/
theorem changelog_block_structure (front : List String) (tOld tNew ts : String)
    (rawLogs : List String) :
    changelogBlock (front ++ [tOld, tNew]) ts rawLogs
      = joinNL ((tNew ++ " - " ++ ts) :: "" :: (filterLogs rawLogs ++ [""])) :=
  changelogBlock_shape front tOld tNew ts rawLogs

/-- Claim C5: a three-line commit log with one merge-commit subject and
two ordinary subjects produces an entry with exactly the two ordinary
subjects in order, excludes the merge subject, and the entry is
prepended before the prior changelog content, which is preserved
unchanged after it. -/
theorem changelog_filter_and_prepend (t1 t2 m o1 o2 ts old : String)
    (hm : keepLogLine m = false) (h1 : keepLogLine o1 = true) (h2 : keepLogLine o2 = true)
    (logs : List String)
    (hlogs : logs = [m, o1, o2] ∨ logs = [o1, m, o2] ∨ logs = [o1, o2, m]) :
    filterLogs logs = [o1, o2]
    ∧ changelogUpdate [t1, t2] ts logs old
        = joinNL [t2 ++ " - " ++ ts, "", o1, o2, ""] ++ old := by
  have hf : filterLogs logs = [o1, o2] := by
    rcases hlogs with rfl | rfl | rfl <;> simp [filterLogs, hm, h1, h2]
  refine ⟨hf, ?_⟩
  have hb := changelogBlock_shape [] t1 t2 ts logs
  rw [List.nil_append] at hb
  simp only [changelogUpdate, hb, hf]
  rfl

/-- Witness for claim C5: a concrete three-line log with one pull-request
merge subject in the middle. -/
theorem changelog_filter_and_prepend_witness :
    filterLogs ["* Fix semi rule (alice)", "* Merge pull request #12 (bob)", "* Add docs (carol)"]
      = ["* Fix semi rule (alice)", "* Add docs (carol)"]
    ∧ changelogUpdate ["v1.0.0", "v1.1.0"] "December 25, 2013"
        ["* Fix semi rule (alice)", "* Merge pull request #12 (bob)", "* Add docs (carol)"]
        "OLD"
      = joinNL ["v1.1.0" ++ " - " ++ "December 25, 2013", "",
          "* Fix semi rule (alice)", "* Add docs (carol)", ""] ++ "OLD" :=
  changelog_filter_and_prepend "v1.0.0" "v1.1.0" "* Merge pull request #12 (bob)"
    "* Fix semi rule (alice)" "* Add docs (carol)" "December 25, 2013" "OLD"
    (by decide) (by decide) (by decide) _ (Or.inr (Or.inl rfl))

/-- Claim C6 (code bug): the perf gate decides on the median but its
report interpolates `actual`, the third run's duration.  With run
durations 200, 210, 140 and threshold 150 the gate fails on median 200
yet reports 140 — a value that does not even exceed the limit — so the
failure report does not contain the offending (median) duration. -/
theorem perf_report_third_run_bug :
    (perfGate 200 210 140 150).failed = true
    ∧ (perfGate 200 210 140 150).reportedDuration = 140
    ∧ median3 200 210 140 = 200
    ∧ (perfGate 200 210 140 150).reportedDuration ≠ median3 200 210 140
    ∧ ¬ (perfGate 200 210 140 150).reportedDuration > (perfGate 200 210 140 150).limit := by
  refine ⟨by decide, by decide, by decide, by decide, by decide⟩

/-- Claim C7: the File Set Resolver is a pure function of the directory
tree, so resolving twice against an unchanged tree yields identical
ordered path sequences. -/
theorem fileset_resolver_roundtrip (ext : String) (t1 t2 : FSTree) (h : t1 = t2) :
    resolveFileSet ext t1 = resolveFileSet ext t2 := by
  rw [h]

/-- Witness for claim C7 at a concrete tree. -/
theorem fileset_resolver_roundtrip_witness :
    resolveFileSet "js" demoTree = resolveFileSet "js" demoTree :=
  fileset_resolver_roundtrip "js" demoTree demoTree rfl

/-- Claim C8: the changelog operation is not idempotent — running it
twice against the same tag, log and date state prepends the block a
second time, so the file carries two copies of the entry and differs
from the single-run result. -/
theorem changelog_not_idempotent (tags : List String) (ts : String) (rawLogs : List String)
    (old : String) :
    changelogUpdate tags ts rawLogs (changelogUpdate tags ts rawLogs old)
      = changelogBlock tags ts rawLogs ++ (changelogBlock tags ts rawLogs ++ old)
    ∧ changelogUpdate tags ts rawLogs (changelogUpdate tags ts rawLogs old)
      ≠ changelogUpdate tags ts rawLogs old := by
  refine ⟨rfl, ?_⟩
  intro hEq
  have hlen := congrArg String.length hEq
  simp only [changelogUpdate, String.length_append] at hlen
  have hb := changelogBlock_length_pos tags ts rawLogs
  omega

/-- Claim C9: `fileType` classifies by the substring after the last dot,
so a filename with no dot matches exactly when the whole filename equals
the extension string. -/
theorem fileType_no_dot (ext fn : String) (h : '.' ∉ fn.toList) :
    fileType ext fn = true ↔ fn = ext := by
  simp only [fileType]
  rw [jsLastIndexOf_of_not_mem '.' fn.toList h]
  rw [show ((-1 : Int) + 1).toNat = 0 from rfl]
  simp only [List.drop_zero, beq_iff_eq]
  exact String.toList_inj

/-- Witness for claim C9: a file literally named `js` is classified as
a JavaScript file. -/
theorem fileType_no_dot_witness : fileType "js" "js" = true :=
  (fileType_no_dot "js" "js" (by decide)).mpr rfl

/-- Claim C10: a log line survives the merge-noise filter exactly when
it contains neither "Merge pull request" nor "Merge branch" as a
substring — so any line mentioning either phrase is excluded, merge
commit or not. -/
theorem merge_filter_substring_iff (logs : List String) (line : String) (h : line ∈ logs) :
    line ∈ filterLogs logs
      ↔ ¬ (("Merge pull request" : String).toList <:+: line.toList
            ∨ ("Merge branch" : String).toList <:+: line.toList) := by
  rw [filterLogs, List.mem_filter]
  simp only [h, true_and]
  rw [show keepLogLine line
      = (jsIndexOf line "Merge pull request" == -1 && jsIndexOf line "Merge branch" == -1)
    from rfl]
  rw [Bool.and_eq_true, beq_iff_eq, beq_iff_eq]
  rw [jsIndexOf_neg_one_iff, jsIndexOf_neg_one_iff]
  exact not_or.symm

/-- Witness for claim C10: an ordinary commit subject that merely
mentions "Merge branch" is excluded from the entry. -/
theorem merge_filter_substring_iff_witness :
    "* Improve Merge branch docs (alice)" ∉ filterLogs ["* Improve Merge branch docs (alice)"] := by
  intro hmem
  exact (merge_filter_substring_iff ["* Improve Merge branch docs (alice)"]
      "* Improve Merge branch docs (alice)" (by decide)).mp hmem
    (Or.inr ⟨"* Improve ".toList, " docs (alice)".toList, by decide⟩)
